import Mathlib

/-
Verification development for the portfolio-analyzer repository.

Shallow embedding of the core pipeline functions:
  * src/stock_split_handler.py : apply_splits
  * src/xirr_analysis.py       : xnpv, xirr, calculate_xirr
  * src/currency_converter.py  : convert_to_inr

Dates are modelled as integers (day numbers), monetary quantities as
rationals, and the net-present-value arithmetic as exact real arithmetic.
-/

set_option autoImplicit false

/-! ## Split adjuster (src/stock_split_handler.py) -/

/-- One row of the trading table, with the columns touched by
`apply_splits` (Symbol, Date/time, Quantity, T. price, Proceeds). -/
structure Trade where
  symbol : String
  date : ℤ
  quantity : ℚ
  price : ℚ
  proceeds : ℚ
deriving DecidableEq, Repr

/-- One row of the split table (Symbol, Date, Split Ratio). -/
structure SplitEvent where
  symbol : String
  date : ℤ
  ratio : ℚ
deriving DecidableEq, Repr

/-- The body of the loop of `apply_splits` restricted to a single trade row:
if the row matches the mask `Symbol == symbol and Date/time < split_date`,
then `Quantity *= ratio`, `T. price /= ratio`, and `Proceeds` is recomputed
as the product of the new quantity and new price; otherwise the row is
untouched. -/
def applySplit (t : Trade) (s : SplitEvent) : Trade :=
  if t.symbol = s.symbol ∧ t.date < s.date then
    { t with
        quantity := t.quantity * s.ratio
      , price := t.price / s.ratio
      , proceeds := (t.quantity * s.ratio) * (t.price / s.ratio) }
  else t

/-- `apply_splits(trading_df, split_df)`: iterate over the split rows, and
for each one apply the masked vectorized update to every trading row. -/
def apply_splits (trading : List Trade) (splits : List SplitEvent) : List Trade :=
  splits.foldl (fun acc s => acc.map (fun t => applySplit t s)) trading

/-- The cumulative effect of the whole split table on one trade row. -/
def adjustTrade (splits : List SplitEvent) (t : Trade) : Trade :=
  splits.foldl applySplit t

theorem applySplit_of_match (t : Trade) (s : SplitEvent)
    (h : t.symbol = s.symbol ∧ t.date < s.date) :
    applySplit t s =
      { t with
          quantity := t.quantity * s.ratio
        , price := t.price / s.ratio
        , proceeds := (t.quantity * s.ratio) * (t.price / s.ratio) } := by
  unfold applySplit
  rw [if_pos h]

theorem applySplit_symbol (t : Trade) (s : SplitEvent) :
    (applySplit t s).symbol = t.symbol := by
  unfold applySplit
  split <;> rfl

theorem applySplit_date (t : Trade) (s : SplitEvent) :
    (applySplit t s).date = t.date := by
  unfold applySplit
  split <;> rfl

theorem applySplit_quantity_of_match (t : Trade) (s : SplitEvent)
    (h : t.symbol = s.symbol ∧ t.date < s.date) :
    (applySplit t s).quantity = t.quantity * s.ratio := by
  unfold applySplit
  rw [if_pos h]

theorem applySplit_keeps (t : Trade) (s : SplitEvent)
    (h : t.proceeds = t.quantity * t.price) :
    (applySplit t s).proceeds = (applySplit t s).quantity * (applySplit t s).price := by
  unfold applySplit
  split
  · rfl
  · exact h

theorem adjustTrade_keeps (ss : List SplitEvent) (t : Trade)
    (h : t.proceeds = t.quantity * t.price) :
    (adjustTrade ss t).proceeds = (adjustTrade ss t).quantity * (adjustTrade ss t).price := by
  induction ss generalizing t with
  | nil => exact h
  | cons s ss ih => exact ih (applySplit t s) (applySplit_keeps t s h)

theorem adjustTrade_inv_of_match (ss : List SplitEvent) (t : Trade)
    (h : ∃ s ∈ ss, t.symbol = s.symbol ∧ t.date < s.date) :
    (adjustTrade ss t).proceeds = (adjustTrade ss t).quantity * (adjustTrade ss t).price := by
  induction ss generalizing t with
  | nil => simp at h
  | cons s ss ih =>
    rcases h with ⟨s', hs', hsym, hdate⟩
    rcases List.mem_cons.mp hs' with rfl | hmem
    · show (adjustTrade ss (applySplit t s')).proceeds = _
      apply adjustTrade_keeps
      rw [applySplit_of_match t s' ⟨hsym, hdate⟩]
    · show (adjustTrade ss (applySplit t s)).proceeds = _
      apply ih
      refine ⟨s', hmem, ?_, ?_⟩
      · rw [applySplit_symbol]; exact hsym
      · rw [applySplit_date]; exact hdate

theorem apply_splits_eq_map (ss : List SplitEvent) (ts : List Trade) :
    apply_splits ts ss = ts.map (adjustTrade ss) := by
  induction ss generalizing ts with
  | nil =>
    show ts = ts.map (fun t => t)
    rw [List.map_id']
  | cons s ss ih =>
    show apply_splits (ts.map (fun t => applySplit t s)) ss = _
    rw [ih, List.map_map]
    rfl

/-- C2 as stated is false: a trade row matched by no split keeps its
original `proceeds`, which need not equal `quantity * price` (in broker
exports it typically does not). Here the split's effective date is at or
before the trade date, so the mask is empty and the row is returned
unchanged with `proceeds = 100` while `quantity * price = 6`. -/
theorem apply_splits_proceeds_counterexample :
    ¬ (∀ t ∈ apply_splits [⟨"A", 5, 2, 3, 100⟩] [⟨"A", 3, 2⟩],
        t.proceeds = t.quantity * t.price) := by
  intro h
  have e : apply_splits [(⟨"A", 5, 2, 3, 100⟩ : Trade)] [⟨"A", 3, 2⟩]
      = [⟨"A", 5, 2, 3, 100⟩] := rfl
  have hm : (⟨"A", 5, 2, 3, 100⟩ : Trade)
      ∈ apply_splits [(⟨"A", 5, 2, 3, 100⟩ : Trade)] [⟨"A", 3, 2⟩] := by
    rw [e]
    exact List.mem_singleton.mpr rfl
  have hv := h _ hm
  norm_num at hv

/-- C2 (amended): the output of `apply_splits` is the row-wise cumulative
adjustment, and every trade row matched by at least one split event ends
with `proceeds` exactly re-derived as `quantity * price` (rows matched by
no split keep their original `proceeds`). -/
theorem apply_splits_proceeds_rederived (ts : List Trade) (ss : List SplitEvent) :
    apply_splits ts ss = ts.map (adjustTrade ss)
    ∧ ∀ t : Trade, (∃ s ∈ ss, t.symbol = s.symbol ∧ t.date < s.date) →
        (adjustTrade ss t).proceeds
          = (adjustTrade ss t).quantity * (adjustTrade ss t).price := by
  exact ⟨apply_splits_eq_map ss ts, fun t h => adjustTrade_inv_of_match ss t h⟩

/-- Witness for the amended C2 at a concrete matched trade. -/
theorem apply_splits_proceeds_rederived_witness :
    (∃ s ∈ [(⟨"A", 5, 2⟩ : SplitEvent)],
        (⟨"A", 0, 2, 10, -20⟩ : Trade).symbol = s.symbol
        ∧ (⟨"A", 0, 2, 10, -20⟩ : Trade).date < s.date)
    ∧ (adjustTrade [⟨"A", 5, 2⟩] ⟨"A", 0, 2, 10, -20⟩).proceeds
        = (adjustTrade [⟨"A", 5, 2⟩] ⟨"A", 0, 2, 10, -20⟩).quantity
          * (adjustTrade [⟨"A", 5, 2⟩] ⟨"A", 0, 2, 10, -20⟩).price :=
  ⟨by decide,
   (apply_splits_proceeds_rederived [⟨"A", 0, 2, 10, -20⟩] [⟨"A", 5, 2⟩]).2
     ⟨"A", 0, 2, 10, -20⟩ (by decide)⟩

/-- C6: a trade dated before two split events for its symbol picks up the
combined quantity factor `r1 * r2`, in whichever order the two split rows
are processed. -/
theorem split_order_independent (t : Trade) (s1 s2 : SplitEvent)
    (h1 : t.symbol = s1.symbol) (h2 : t.symbol = s2.symbol)
    (h3 : t.date < s1.date) (h4 : t.date < s2.date) (h5 : s1.date ≤ s2.date) :
    (apply_splits [t] [s1, s2]).map Trade.quantity
        = [t.quantity * (s1.ratio * s2.ratio)]
    ∧ (apply_splits [t] [s2, s1]).map Trade.quantity
        = [t.quantity * (s1.ratio * s2.ratio)] := by
  have c12 : (applySplit (applySplit t s1) s2).quantity
      = t.quantity * s1.ratio * s2.ratio := by
    rw [applySplit_quantity_of_match (applySplit t s1) s2
          ⟨by rw [applySplit_symbol]; exact h2, by rw [applySplit_date]; exact h4⟩,
        applySplit_quantity_of_match t s1 ⟨h1, h3⟩]
  have c21 : (applySplit (applySplit t s2) s1).quantity
      = t.quantity * s2.ratio * s1.ratio := by
    rw [applySplit_quantity_of_match (applySplit t s2) s1
          ⟨by rw [applySplit_symbol]; exact h1, by rw [applySplit_date]; exact h3⟩,
        applySplit_quantity_of_match t s2 ⟨h2, h4⟩]
  constructor
  · show [(applySplit (applySplit t s1) s2).quantity] = _
    rw [c12, mul_assoc]
  · show [(applySplit (applySplit t s2) s1).quantity] = _
    rw [c21]
    ring_nf

/-- Witness for C6 at a concrete trade and two concrete splits. -/
theorem split_order_independent_witness :
    ((⟨"A", 0, 3, 8, -24⟩ : Trade).symbol = (⟨"A", 1, 2⟩ : SplitEvent).symbol
      ∧ (⟨"A", 0, 3, 8, -24⟩ : Trade).symbol = (⟨"A", 2, 5⟩ : SplitEvent).symbol
      ∧ (⟨"A", 0, 3, 8, -24⟩ : Trade).date < (⟨"A", 1, 2⟩ : SplitEvent).date
      ∧ (⟨"A", 0, 3, 8, -24⟩ : Trade).date < (⟨"A", 2, 5⟩ : SplitEvent).date
      ∧ (⟨"A", 1, 2⟩ : SplitEvent).date ≤ (⟨"A", 2, 5⟩ : SplitEvent).date)
    ∧ ((apply_splits [⟨"A", 0, 3, 8, -24⟩] [⟨"A", 1, 2⟩, ⟨"A", 2, 5⟩]).map Trade.quantity
          = [(3 : ℚ) * (2 * 5)]
        ∧ (apply_splits [⟨"A", 0, 3, 8, -24⟩] [⟨"A", 2, 5⟩, ⟨"A", 1, 2⟩]).map Trade.quantity
          = [(3 : ℚ) * (2 * 5)]) :=
  ⟨⟨by decide, by decide, by decide, by decide, by decide⟩,
   split_order_independent ⟨"A", 0, 3, 8, -24⟩ ⟨"A", 1, 2⟩ ⟨"A", 2, 5⟩
     (by decide) (by decide) (by decide) (by decide) (by decide)⟩

/-! ## XIRR engine (src/xirr_analysis.py) -/

/-- Python exception classes relevant to the numeric code paths of
`xnpv`/`xirr`. -/
inductive PyExn where
  | runtimeError
  | overflowError
  | zeroDivisionError
  | indexError
deriving DecidableEq, Repr

/-- Outcome of the external root-finder `scipy.optimize.newton` applied to
the objective `lambda r: xnpv(r, cashflows)`: either a value, or a raised
exception (its own `RuntimeError` on failure to converge, or any exception
the objective itself raises, which `newton` does not catch). -/
inductive NewtonOutcome where
  | val (r : ℚ)
  | exnRaised (e : PyExn)
deriving DecidableEq, Repr

/-- The exception, if any, that Python raises while evaluating
`xnpv(rate, cashflows)` (src/xirr_analysis.py lines 5-7) in exact
arithmetic at a rational trial rate. `cashflows[0][0]` on an empty list
raises IndexError. A term `cf / (1 + rate) ** ((t - t0).days / 365)` raises
ZeroDivisionError when `1 + rate == 0` and the exponent is nonzero: for a
negative exponent `0.0 ** e` itself raises, and for a positive exponent it
yields `0.0` and the division raises. With a zero exponent the power is
`1.0` and the term is fine. -/
def xnpvExn (rate : ℚ) (cashflows : List (ℤ × ℚ)) : Option PyExn :=
  match cashflows with
  | [] => some PyExn.indexError
  | (t0, _) :: _ =>
    cashflows.findSome? (fun p =>
      if 1 + rate = 0 ∧ p.1 ≠ t0 then some PyExn.zeroDivisionError else none)

/-- `xirr(cashflows)` (src/xirr_analysis.py lines 9-14): run the
root-finder inside `try`, return `None` on `RuntimeError` or
`OverflowError`, and let every other exception propagate to the caller. -/
def xirr (o : NewtonOutcome) : Except PyExn (Option ℚ) :=
  match o with
  | NewtonOutcome.val r => Except.ok (some r)
  | NewtonOutcome.exnRaised e =>
    if e = PyExn.runtimeError ∨ e = PyExn.overflowError then Except.ok none
    else Except.error e

/-- One row of the per-symbol trade table used by `calculate_xirr`
(columns Symbol, Date/time, Quantity, Proceeds, Comm/fee). -/
structure XRow where
  symbol : String
  date : ℤ
  quantity : ℚ
  proceeds : ℚ
  fee : ℚ
deriving DecidableEq, Repr

/-- `df[df['Symbol'] == symbol]`. -/
def tradesFor (rows : List XRow) (s : String) : List XRow :=
  rows.filter (fun t => t.symbol = s)

/-- The cash-flow accumulation loop of `calculate_xirr`: for each trade,
append `(date, -(Proceeds - Comm/fee))`. -/
def buildFlows (trades : List XRow) : List (ℤ × ℚ) :=
  trades.foldl (fun acc t => acc ++ [(t.date, -(t.proceeds - t.fee))]) []

/-- `trades['Quantity'].sum()`. -/
def sumQ (trades : List XRow) : ℚ :=
  trades.foldl (fun a t => a + t.quantity) 0

/-- `trades['Date/time'].max()` (meaningful on a nonempty table). -/
def maxDate (trades : List XRow) : ℤ :=
  match trades with
  | [] => 0
  | t :: rest => rest.foldl (fun a x => max a x.date) t.date

/-- The cash-flow series handed to `xirr` for one symbol: the per-trade
flows, plus, when the list is nonempty and the summed quantity is nonzero,
a placeholder terminal flow `(last_date, 0)`. -/
def cashflowsFor (trades : List XRow) : List (ℤ × ℚ) :=
  let cfs := buildFlows trades
  if cfs.isEmpty then cfs
  else if sumQ trades ≠ 0 then cfs ++ [(maxDate trades, 0)]
  else cfs

/-- `df['Symbol'].unique()`: symbols in order of first appearance. -/
def uniqueSymbols (rows : List XRow) : List String :=
  rows.foldl (fun acc r => if r.symbol ∈ acc then acc else acc ++ [r.symbol]) []

/-- The per-symbol loop of `calculate_xirr` (src/xirr_analysis.py lines
16-33), parameterized by the root-finder `nf`. A symbol with an empty
cash-flow list is skipped; otherwise `xirr` is called, a `None` rate means
the symbol is silently dropped from the results dict, and an uncaught
exception aborts the whole loop. -/
def calcLoop (nf : List (ℤ × ℚ) → NewtonOutcome) (rows : List XRow) :
    List String → Except PyExn (List (String × ℚ))
  | [] => Except.ok []
  | s :: ss =>
    let trades := tradesFor rows s
    if (buildFlows trades).isEmpty then calcLoop nf rows ss
    else
      match xirr (nf (cashflowsFor trades)) with
      | Except.error e => Except.error e
      | Except.ok none => calcLoop nf rows ss
      | Except.ok (some r) =>
        match calcLoop nf rows ss with
        | Except.error e => Except.error e
        | Except.ok rest => Except.ok ((s, r) :: rest)

/-- `calculate_xirr(df)`: iterate over the unique symbols of the table. -/
def calculate_xirr (nf : List (ℤ × ℚ) → NewtonOutcome) (rows : List XRow) :
    Except PyExn (List (String × ℚ)) :=
  calcLoop nf rows (uniqueSymbols rows)

/-- C1: the claim is right and the code is wrong. At trial rate `r = -1`
the objective `xnpv` raises ZeroDivisionError on any cash-flow pair with
distinct dates; the `except (RuntimeError, OverflowError)` clause of
`xirr` does not cover it, so the exception propagates, and `calculate_xirr`
has no per-symbol handler, so one pathological instrument aborts the whole
batch instead of mapping to the no-convergence absence. -/
theorem xirr_zero_division_uncaught :
    xnpvExn (-1) [((0 : ℤ), (100 : ℚ)), ((365 : ℤ), (-110 : ℚ))]
        = some PyExn.zeroDivisionError
    ∧ xirr (NewtonOutcome.exnRaised PyExn.zeroDivisionError)
        = Except.error PyExn.zeroDivisionError
    ∧ calculate_xirr (fun _ => NewtonOutcome.exnRaised PyExn.zeroDivisionError)
        [⟨"A", 0, 1, 100, 0⟩, ⟨"B", 365, -1, -110, 0⟩]
        = Except.error PyExn.zeroDivisionError
    ∧ xirr (NewtonOutcome.exnRaised PyExn.runtimeError) = Except.ok none := by
  refine ⟨?_, rfl, rfl, rfl⟩
  simp [xnpvExn, List.findSome?]

theorem buildFlows_eq_map (trades : List XRow) :
    buildFlows trades = trades.map (fun t => (t.date, -(t.proceeds - t.fee))) := by
  have aux : ∀ (l : List XRow) (acc : List (ℤ × ℚ)),
      l.foldl (fun acc t => acc ++ [(t.date, -(t.proceeds - t.fee))]) acc
        = acc ++ l.map (fun t => (t.date, -(t.proceeds - t.fee))) := by
    intro l
    induction l with
    | nil => intro acc; simp
    | cons t ts ih =>
      intro acc
      rw [List.foldl_cons, ih]
      simp
  have h := aux trades []
  rw [List.nil_append] at h
  exact h

/-- C5: the cash-flow series built for one instrument is exactly one flow
`(date, -(proceeds - fee))` per trade, followed, when the instrument's
summed quantity is nonzero, by one terminal placeholder flow of amount 0
at the latest trade date. -/
theorem cashflows_construction (trades : List XRow) :
    cashflowsFor trades
      = trades.map (fun t => (t.date, -(t.proceeds - t.fee)))
        ++ (if sumQ trades ≠ 0 then [(maxDate trades, 0)] else []) := by
  unfold cashflowsFor
  rw [buildFlows_eq_map]
  cases trades with
  | nil =>
    have hz : sumQ [] = 0 := rfl
    rw [hz]
    simp
  | cons t ts =>
    rw [List.map_cons]
    simp only [List.isEmpty_cons, if_neg Bool.false_ne_true]
    split
    · rfl
    · rw [List.append_nil]

theorem calcLoop_runtime_fail (rows : List XRow) (syms : List String) :
    calcLoop (fun _ => NewtonOutcome.exnRaised PyExn.runtimeError) rows syms
      = Except.ok [] := by
  induction syms with
  | nil => rfl
  | cons s ss ih =>
    show (if (buildFlows (tradesFor rows s)).isEmpty then _ else _) = _
    split
    · exact ih
    · show calcLoop _ rows ss = _
      exact ih

/-- C3 (amended): a symbol whose root-finding fails is silently dropped
from the results dict, with no reason attached; in particular, when the
root-finder raises RuntimeError (non-convergence) on every input, the
result is the empty mapping whatever the trade table was. -/
theorem calculate_xirr_silent_omission (rows : List XRow) :
    calculate_xirr (fun _ => NewtonOutcome.exnRaised PyExn.runtimeError) rows
      = Except.ok [] :=
  calcLoop_runtime_fail rows (uniqueSymbols rows)

/-- C3 as stated is false: the result carries no reason at all. A symbol
with two trades whose root-finder fails to converge produces exactly the
same output (the empty mapping) as an empty trade table, so
no-convergence is indistinguishable from having no data, and the failing
symbol is a silent omission, not an explicit absence. -/
theorem calculate_xirr_collapse_counterexample :
    calculate_xirr (fun _ => NewtonOutcome.exnRaised PyExn.runtimeError)
        [⟨"A", 0, 1, 100, 0⟩, ⟨"A", 365, -1, -110, 0⟩] = Except.ok []
    ∧ calculate_xirr (fun _ => NewtonOutcome.exnRaised PyExn.runtimeError) []
        = Except.ok [] :=
  ⟨rfl, rfl⟩

/-! ## Currency normalizer (src/currency_converter.py) -/

/-- One input row of `convert_to_inr`, with the fields the function reads:
the currency column, the amount column, and the row's date (present in the
table but never read by the function). Missing values (pandas NaN) are
modelled as `none`. -/
structure CRow where
  currency : Option String
  amount : Option ℚ
  date : ℤ
deriving DecidableEq, Repr

/-- The external rate capability of the spec,
`(from_currency, to_currency, date) -> positive real | unavailable`;
`forex_python`'s `get_rate` takes an optional date defaulting to the
current date, modelled as the `none` date. An unavailable rate is a raised
exception, modelled as `Except.error`. -/
def Provider : Type := String → String → Option ℤ → Except Unit ℚ

/-- One line printed by the `except` branch of `convert_to_inr`:
`[ERROR] Row idx - Failed to convert amount currency`. -/
structure AuditEntry where
  amount : ℚ
  currency : String
deriving DecidableEq, Repr

/-- The per-row body of `convert_to_inr` (src/currency_converter.py lines
9-25): rows with a missing currency or amount are skipped, leaving the
pre-initialized `INR Amount` of `0.0`; an `INR` row keeps its amount with
no rate lookup; any other row is multiplied by
`c.get_rate(base_currency, 'INR')` — called with no date argument — and a
lookup failure records `None` and prints an error line. Returns the
row's resulting `INR Amount` and its audit line, if any. -/
def convertRow (gr : Provider) (r : CRow) : Option ℚ × Option AuditEntry :=
  match r.currency, r.amount with
  | none, _ => (some 0, none)
  | some _, none => (some 0, none)
  | some c, some a =>
    if c = "INR" then (some a, none)
    else
      match gr c "INR" none with
      | Except.ok rate => (some (a * rate), none)
      | Except.error _ => (none, some ⟨a, c⟩)

/-- The `for idx, row in df.iterrows()` loop of `convert_to_inr`, carrying
the running row index: produces each row paired with its `INR Amount`, and
the list of printed error lines with their row indices. -/
def convGo (gr : Provider) : List CRow → ℕ → List (CRow × Option ℚ) × List (ℕ × AuditEntry)
  | [], _ => ([], [])
  | r :: rs, i =>
    let res := convertRow gr r
    let rest := convGo gr rs (i + 1)
    ((r, res.1) :: rest.1,
     match res.2 with
     | some e => (i, e) :: rest.2
     | none => rest.2)

/-- `convert_to_inr(df)`: the full table pass, starting at row index 0. -/
def convert_to_inr (gr : Provider) (rows : List CRow) :
    List (CRow × Option ℚ) × List (ℕ × AuditEntry) :=
  convGo gr rows 0

theorem convGo_fst (gr : Provider) (rows : List CRow) :
    ∀ i : ℕ, (convGo gr rows i).1 = rows.map (fun r => (r, (convertRow gr r).1)) := by
  induction rows with
  | nil => intro i; rfl
  | cons r rs ih =>
    intro i
    show (r, (convertRow gr r).1) :: (convGo gr rs (i + 1)).1 = _
    rw [List.map_cons, ih]

theorem convGo_snd (gr : Provider) (rows : List CRow) :
    ∀ i : ℕ, (convGo gr rows i).2
      = (List.enumFrom i rows).filterMap
          (fun p => Option.map (fun e => (p.1, e)) (convertRow gr p.2).2) := by
  induction rows with
  | nil => intro i; rfl
  | cons r rs ih =>
    intro i
    show (match (convertRow gr r).2 with
          | some e => (i, e) :: (convGo gr rs (i + 1)).2
          | none => (convGo gr rs (i + 1)).2) = _
    rw [List.enumFrom_cons, List.filterMap_cons, ih]
    cases (convertRow gr r).2 <;> rfl

/-- C7: a row already denominated in the target currency keeps its amount
exactly, and its result does not depend on the rate provider at all; the
full pass processes every row independently through `convertRow`. -/
theorem convert_inr_identity (gr gr2 : Provider) (r : CRow) (a : ℚ)
    (hc : r.currency = some "INR") (ha : r.amount = some a) :
    (convertRow gr r).1 = some a
    ∧ convertRow gr r = convertRow gr2 r
    ∧ ∀ rows : List CRow,
        (convert_to_inr gr rows).1 = rows.map (fun x => (x, (convertRow gr x).1)) := by
  refine ⟨?_, ?_, fun rows => convGo_fst gr rows 0⟩
  · unfold convertRow
    rw [hc, ha]
    rfl
  · unfold convertRow
    rw [hc, ha]
    rfl

/-- Witness for C7 on a concrete INR row and two providers that disagree
everywhere. -/
theorem convert_inr_identity_witness :
    ((⟨some "INR", some 5, 0⟩ : CRow).currency = some "INR"
      ∧ (⟨some "INR", some 5, 0⟩ : CRow).amount = some (5 : ℚ))
    ∧ ((convertRow (fun _ _ _ => Except.error ()) ⟨some "INR", some 5, 0⟩).1 = some 5
        ∧ convertRow (fun _ _ _ => Except.error ()) ⟨some "INR", some 5, 0⟩
            = convertRow (fun _ _ _ => Except.ok 99) ⟨some "INR", some 5, 0⟩
        ∧ ∀ rows : List CRow,
            (convert_to_inr (fun _ _ _ => Except.error ()) rows).1
              = rows.map (fun x => (x, (convertRow (fun _ _ _ => Except.error ()) x).1))) :=
  ⟨⟨rfl, rfl⟩,
   convert_inr_identity (fun _ _ _ => Except.error ()) (fun _ _ _ => Except.ok 99)
     ⟨some "INR", some 5, 0⟩ 5 rfl rfl⟩

/-- C9: a row whose rate lookup raises gets its normalized amount recorded
as `none` (absent, not zero), gets an explicit audit line, and every other
row is still processed: the output is the row-wise map, and the audit log
is exactly the error lines of the failing rows with their indices. -/
theorem convert_unavailable_absent (gr : Provider) (r : CRow) (c : String) (a : ℚ)
    (hc : r.currency = some c) (ha : r.amount = some a) (hne : c ≠ "INR")
    (hr : gr c "INR" none = Except.error ()) :
    (convertRow gr r).1 = none
    ∧ (convertRow gr r).2 = some ⟨a, c⟩
    ∧ ∀ rows : List CRow,
        (convert_to_inr gr rows).1 = rows.map (fun x => (x, (convertRow gr x).1))
        ∧ (convert_to_inr gr rows).2
          = (List.enumFrom 0 rows).filterMap
              (fun p => Option.map (fun e => (p.1, e)) (convertRow gr p.2).2) := by
  have hrow : convertRow gr r = (none, some ⟨a, c⟩) := by
    unfold convertRow
    rw [hc, ha]
    simp only [if_neg hne]
    rw [hr]
  exact ⟨by rw [hrow], by rw [hrow],
    fun rows => ⟨convGo_fst gr rows 0, convGo_snd gr rows 0⟩⟩

/-- Witness for C9 on a concrete USD row and an always-unavailable
provider. -/
theorem convert_unavailable_absent_witness :
    ((⟨some "USD", some 7, 3⟩ : CRow).currency = some "USD"
      ∧ (⟨some "USD", some 7, 3⟩ : CRow).amount = some (7 : ℚ)
      ∧ "USD" ≠ "INR"
      ∧ (fun (_ : String) (_ : String) (_ : Option ℤ) => Except.error () : Provider)
          "USD" "INR" none = Except.error ())
    ∧ ((convertRow (fun _ _ _ => Except.error ()) ⟨some "USD", some 7, 3⟩).1 = none
        ∧ (convertRow (fun _ _ _ => Except.error ()) ⟨some "USD", some 7, 3⟩).2
            = some ⟨7, "USD"⟩) := by
  refine ⟨⟨rfl, rfl, by decide, rfl⟩, ?_⟩
  have h := convert_unavailable_absent (fun _ _ _ => Except.error ())
    ⟨some "USD", some 7, 3⟩ "USD" 7 rfl rfl (by decide) rfl
  exact ⟨h.1, h.2.1⟩

/-- C10: a row with a missing currency or amount keeps the pre-initialized
normalized amount of exactly 0, and the row is not dropped: the output has
one entry per input row. -/
theorem convert_missing_zero (gr : Provider) (r : CRow)
    (h : r.currency = none ∨ r.amount = none) :
    (convertRow gr r).1 = some 0
    ∧ ∀ rows : List CRow,
        (convert_to_inr gr rows).1 = rows.map (fun x => (x, (convertRow gr x).1))
        ∧ (convert_to_inr gr rows).1.length = rows.length := by
  refine ⟨?_, fun rows => ⟨convGo_fst gr rows 0, ?_⟩⟩
  case refine_2 =>
    show (convGo gr rows 0).1.length = rows.length
    rw [convGo_fst gr rows 0, List.length_map]
  obtain ⟨cur, amt, d⟩ := r
  rcases h with h | h
  · simp only at h
    subst h
    cases amt <;> rfl
  · simp only at h
    subst h
    cases cur <;> rfl

/-- Witness for C10 on a row with a missing currency. -/
theorem convert_missing_zero_witness :
    ((⟨none, some 3, 0⟩ : CRow).currency = none ∨ (⟨none, some 3, 0⟩ : CRow).amount = none)
    ∧ (convertRow (fun _ _ _ => Except.ok 2) ⟨none, some 3, 0⟩).1 = some 0 :=
  ⟨Or.inl rfl,
   (convert_missing_zero (fun _ _ _ => Except.ok 2) ⟨none, some 3, 0⟩ (Or.inl rfl)).1⟩

/-- C8 (amended): the rate applied to a foreign-currency row is the
provider's current rate for the pair — the call passes no date — so the
row's date is ignored entirely and two rows in the same currency on
different dates receive the same rate. -/
theorem convert_uses_current_rate (gr : Provider) (r : CRow) (c : String) (a v : ℚ)
    (hc : r.currency = some c) (ha : r.amount = some a) (hne : c ≠ "INR")
    (hr : gr c "INR" none = Except.ok v) :
    (convertRow gr r).1 = some (a * v)
    ∧ ∀ d : ℤ, (convertRow gr { r with date := d }).1 = some (a * v) := by
  have key : ∀ d : ℤ, (convertRow gr { r with date := d }).1 = some (a * v) := by
    intro d
    unfold convertRow
    simp only
    rw [hc, ha]
    simp only [if_neg hne]
    rw [hr]
  refine ⟨?_, key⟩
  have h0 := key r.date
  exact h0

/-- Witness for the amended C8 on a concrete USD row. -/
theorem convert_uses_current_rate_witness :
    ((⟨some "USD", some 2, 100⟩ : CRow).currency = some "USD"
      ∧ (⟨some "USD", some 2, 100⟩ : CRow).amount = some (2 : ℚ)
      ∧ "USD" ≠ "INR"
      ∧ (fun (_ : String) (_ : String) (_ : Option ℤ) => Except.ok (50 : ℚ) : Provider)
          "USD" "INR" none = Except.ok 50)
    ∧ (convertRow (fun _ _ _ => Except.ok 50) ⟨some "USD", some 2, 100⟩).1
        = some (2 * 50) :=
  ⟨⟨rfl, rfl, by decide, rfl⟩,
   (convert_uses_current_rate (fun _ _ _ => Except.ok 50)
     ⟨some "USD", some 2, 100⟩ "USD" 2 50 rfl rfl (by decide) rfl).1⟩

/-- A provider whose rate genuinely depends on the date: the current
(dateless) USD to INR rate is 50, the rate on day 100 is 70, and the rate
on any other day is 80. -/
def rateByDate : Provider := fun c t d =>
  if c = "USD" ∧ t = "INR" then
    match d with
    | none => Except.ok 50
    | some dd => if dd = 100 then Except.ok 70 else Except.ok 80
  else Except.error ()

/-- C8 as stated is false: two USD rows on days 100 and 200 both receive
the current rate 50 even though the provider has the distinct
point-in-time rates 70 and 80 for those dates, so neither row's conversion
uses the rate keyed by its own date. -/
theorem convert_point_in_time_counterexample :
    (convert_to_inr rateByDate
        [⟨some "USD", some 1, 100⟩, ⟨some "USD", some 1, 200⟩]).1
      = [(⟨some "USD", some 1, 100⟩, some 50), (⟨some "USD", some 1, 200⟩, some 50)]
    ∧ rateByDate "USD" "INR" (some 100) = Except.ok 70
    ∧ rateByDate "USD" "INR" (some 200) = Except.ok 80
    ∧ ¬ ((1 : ℚ) * 50 = 1 * 70) ∧ ¬ ((1 : ℚ) * 50 = 1 * 80) := by
  refine ⟨?_, rfl, rfl, by norm_num, by norm_num⟩
  simp [convert_to_inr, convGo, convertRow, rateByDate]

/-! ## Net present value (src/xirr_analysis.py, xnpv) -/

/-- `xnpv(rate, cashflows)` (src/xirr_analysis.py lines 5-7) in exact real
arithmetic: `t0 = cashflows[0][0]` is the date of the FIRST flow in list
order, and the value is the sum of `cf / (1 + rate) ** ((t - t0).days / 365)`.
The empty list, on which Python raises IndexError (see `xnpvExn`), is given
the junk value 0 here; no claim touches it. -/
noncomputable def xnpv (r : ℝ) (cashflows : List (ℤ × ℚ)) : ℝ :=
  match cashflows with
  | [] => 0
  | (t0, c0) :: rest =>
    (((t0, c0) :: rest).map
      (fun p => (p.2 : ℝ) / (1 + r) ^ (((p.1 - t0 : ℤ) : ℝ) / 365))).sum

/-- The earliest date among the flows (junk value 0 on the empty list). -/
def minDate : List (ℤ × ℚ) → ℤ
  | [] => 0
  | (t0, _) :: rest => rest.foldl (fun a p => min a p.1) t0

/-- Net present value as the spec words it: the sum over flows of
`amount / (1+r)^(days_since_first_flow/365)` anchored at the EARLIEST
flow's date, actual days over a 365-day year. Written from the spec text,
for comparison with `xnpv` as translated from the code. -/
noncomputable def specXnpv (r : ℝ) (cashflows : List (ℤ × ℚ)) : ℝ :=
  (cashflows.map
    (fun p => (p.2 : ℝ) / (1 + r) ^ (((p.1 - minDate cashflows : ℤ) : ℝ) / 365))).sum

/-- C4 as stated is false: on a list whose first flow is not the earliest,
`xnpv` anchors at the first flow's date, not the earliest one. At rate 1
on flows [(day 365, 1), (day 0, 1)] the code computes 1/2^0 + 1/2^(-1) = 3
while the spec formula gives 1/2^1 + 1/2^0 = 3/2. -/
theorem xnpv_anchor_counterexample :
    xnpv 1 [((365 : ℤ), (1 : ℚ)), ((0 : ℤ), (1 : ℚ))]
      ≠ specXnpv 1 [((365 : ℤ), (1 : ℚ)), ((0 : ℤ), (1 : ℚ))] := by
  unfold xnpv specXnpv minDate
  simp only [List.map_cons, List.map_nil, List.sum_cons, List.sum_nil]
  have hm : List.foldl (fun (a : ℤ) (p : ℤ × ℚ) => a ⊓ p.1) 365 [((0 : ℤ), (1 : ℚ))] = 0 := by
    decide
  rw [hm]
  rw [show ((365 - 365 : ℤ) : ℝ) / 365 = 0 by norm_num,
      show ((0 - 365 : ℤ) : ℝ) / 365 = -1 by norm_num,
      show ((365 - 0 : ℤ) : ℝ) / 365 = 1 by norm_num,
      show ((0 - 0 : ℤ) : ℝ) / 365 = 0 by norm_num]
  rw [Real.rpow_zero, Real.rpow_one, Real.rpow_neg_one]
  norm_num

theorem minDate_of_first (t0 : ℤ) (c0 : ℚ) (rest : List (ℤ × ℚ))
    (h : ∀ p ∈ rest, t0 ≤ p.1) :
    minDate ((t0, c0) :: rest) = t0 := by
  show rest.foldl (fun a p => min a p.1) t0 = t0
  induction rest generalizing t0 with
  | nil => rfl
  | cons q qs ih =>
    rw [List.foldl_cons]
    have hq : t0 ⊓ q.1 = t0 := min_eq_left (h q (List.mem_cons_self q qs))
    rw [hq]
    exact ih t0 (fun p hp => h p (List.mem_cons_of_mem q hp))

/-- C4 (amended): `xnpv` is anchored at the first flow's date in list
order; when the first flow is an earliest one (in particular for any
date-ascending series), this coincides with the spec formula anchored at
the earliest flow's date, actual days over a 365-day year. -/
theorem xnpv_eq_spec (r : ℝ) (t0 : ℤ) (c0 : ℚ) (rest : List (ℤ × ℚ))
    (h : ∀ p ∈ rest, t0 ≤ p.1) :
    xnpv r ((t0, c0) :: rest) = specXnpv r ((t0, c0) :: rest) := by
  unfold xnpv specXnpv
  rw [minDate_of_first t0 c0 rest h]

/-- Witness for the amended C4 on a concrete date-ascending series. -/
theorem xnpv_eq_spec_witness :
    (∀ p ∈ [((365 : ℤ), (2 : ℚ))], (0 : ℤ) ≤ p.1)
    ∧ xnpv 1 [((0 : ℤ), (1 : ℚ)), ((365 : ℤ), (2 : ℚ))]
        = specXnpv 1 [((0 : ℤ), (1 : ℚ)), ((365 : ℤ), (2 : ℚ))] :=
  ⟨by decide, xnpv_eq_spec 1 0 1 [((365 : ℤ), (2 : ℚ))] (by decide)⟩
